import Mathlib

/-!
Verification of the `maily` repository's two utility modules, shallowly
embedded in Lean:

* `src/tools/lancedb/entity_get.py` — the `get_lancedb_entity` tool
  (`LanceDBGetEntity._run` / `._arun`), which builds a WHERE clause from
  filter conditions, runs a prefiltered query and formats the results;
* `src/aura/tools/google_calendar/utils.py` — `get_gmail_credentials`
  (credential resolution) and `parse_and_format_datetime`.

External collaborators (the LanceDB engine, Google auth library calls,
the tz database, the filesystem) are modelled as explicit parameters, and
side effects as explicit effect/log traces.
-/

namespace Maily

/-! ## Filter conditions and WHERE-clause rendering

The module `src/tools/lancedb/_filters.py` (imported by `entity_get.py` as
`build_where_clause` / `FilterCondition`) is not part of the provided
sources, so the definitions in this section are modelled from the spec. -/

/-- A scalar literal in a filter condition: a string or a number. -/
inductive Scalar where
  | str (s : String)
  | num (n : Int)
deriving Repr, DecidableEq

/-- The value of a filter condition: a scalar, or a list of scalars
(used with the `in` operator). -/
inductive FilterValue where
  | scalar (v : Scalar)
  | list (vs : List Scalar)
deriving Repr, DecidableEq

/-- Comparison operator of a filter condition. -/
inductive FilterOp where
  | eq | neq | gt | gte | lt | lte | isIn
deriving Repr, DecidableEq

/-- Modelled from the spec: `FilterCondition` of `src/tools/lancedb/_filters.py`
(absent from the provided sources): `{field, operator, value}`. -/
structure FilterCondition where
  field : String
  op : FilterOp
  value : FilterValue
deriving Repr, DecidableEq

/-- SQL token for each operator. -/
def opToken : FilterOp → String
  | .eq => "="
  | .neq => "!="
  | .gt => ">"
  | .gte => ">="
  | .lt => "<"
  | .lte => "<="
  | .isIn => "IN"

/-- Render a scalar literal: strings single-quoted, numbers unquoted. -/
def renderScalar : Scalar → String
  | .str s => "'" ++ s ++ "'"
  | .num n => toString n

/-- Render a condition value: a scalar literal, or a parenthesized
comma-separated literal list. -/
def renderFilterValue : FilterValue → String
  | .scalar v => renderScalar v
  | .list vs => "(" ++ String.intercalate ", " (vs.map renderScalar) ++ ")"

/-- Render one condition as `<field> <op> <literal>`. -/
def renderCondition (c : FilterCondition) : String :=
  c.field ++ " " ++ opToken c.op ++ " " ++ renderFilterValue c.value

/-- Modelled from the spec: `build_where_clause` of
`src/tools/lancedb/_filters.py` (absent from the provided sources): render
each condition and join the rendered sub-clauses with `" AND "`. -/
def build_where_clause : List FilterCondition → String
  | [] => ""
  | [c] => renderCondition c
  | c :: c2 :: rest => renderCondition c ++ " AND " ++ build_where_clause (c2 :: rest)

/-- A table row as stored in the engine: field name to scalar value. -/
abbrev Row := List (String × Scalar)

/-- Evaluate one filter condition on a row. -/
def evalCondition (row : Row) (c : FilterCondition) : Bool :=
  match row.lookup c.field with
  | none => false
  | some v =>
    match c.op, c.value with
    | .eq, .scalar w => v == w
    | .neq, .scalar w => v != w
    | .gt, .scalar (.num m) => (match v with | .num n => decide (m < n) | _ => false)
    | .gte, .scalar (.num m) => (match v with | .num n => decide (m ≤ n) | _ => false)
    | .lt, .scalar (.num m) => (match v with | .num n => decide (n < m) | _ => false)
    | .lte, .scalar (.num m) => (match v with | .num n => decide (n ≤ m) | _ => false)
    | .isIn, .list vs => vs.contains v
    | _, _ => false

/-- Modelled from the spec: the engine's prefiltered scan — the predicate is
a pure row filter applied before any ranking, a row matching when every
condition holds (the empty conjunction holds on every row). -/
def whereScan (rows : List Row) (conds : List FilterCondition) : List Row :=
  rows.filter (fun r => conds.all (fun c => evalCondition r c))

/-! ## Entity formatting and `LanceDBGetEntity._run`
(`src/tools/lancedb/entity_get.py`) -/

/-- An entity returned by the query, as a Python dict: an association list
of field name to displayed (`str()`-rendered) value. -/
abbrev Entity := List (String × String)

/-- The keys of the entity dict, sorted (`sorted(entity_dict.keys())`). -/
def sortedKeys (fields : Entity) : List String :=
  (fields.map Prod.fst).insertionSort (· ≤ ·)

/-- The `key, value` pairs that `_run` displays for one entity: keys sorted,
the key `"vector"` skipped, each remaining key paired with its dict value. -/
def entityLines (fields : Entity) : List (String × String) :=
  ((sortedKeys fields).filter (fun k => k != "vector")).map
    (fun k => (k, (fields.lookup k).getD ""))

/-- One displayed line, `f"\x7bk\x7d: \x7bentity_dict[k]\x7d"`. -/
def renderLine (p : String × String) : String :=
  p.1 ++ ": " ++ p.2

/-- Format one entity as a brace-delimited block of indented
`key: value` lines. -/
def formatEntity (fields : Entity) : String :=
  "\x7b\n    " ++ String.intercalate "\n    " ((entityLines fields).map renderLine)
    ++ "\n\x7d"

/-- A Python exception, by dynamic type name and message. -/
structure PyExc where
  ty : String
  msg : String
deriving Repr, DecidableEq

/-- The opened table, modelled by what `_run` does with it: running
`table.search().where(where=w, prefilter=pf).to_list()` yields entities or
raises. -/
abbrev Table := String → Bool → Except PyExc (List Entity)

/-- The method `LanceDBGetEntity._run`: open the table, build the WHERE
clause, run the prefiltered query, format the results; on any exception,
log `"Failed to get entities: ..."` and re-raise the same exception.
Returns the log trace together with the outcome. -/
def LanceDBGetEntity_run (openTable : String → Except PyExc Table)
    (table_name : String) (conditions : List FilterCondition) :
    List String × Except PyExc String :=
  let body : Except PyExc String :=
    match openTable table_name with
    | .error e => .error e
    | .ok table =>
      let where_clause := build_where_clause conditions
      match table where_clause true with
      | .error e => .error e
      | .ok results =>
        let formatted_results := results.map formatEntity
        let results_str := String.intercalate "\n" formatted_results
        .ok ("Found " ++ toString results.length ++ " entities matching "
          ++ where_clause ++ ":\n" ++ results_str)
  match body with
  | .error e => (["Failed to get entities: " ++ e.msg], .error e)
  | .ok s => ([], .ok s)

/-- The method `LanceDBGetEntity._arun`: always raises
`NotImplementedError`, with no side effects (empty log trace). -/
def LanceDBGetEntity_arun (table : String) (whereStr : String) :
    List String × Except PyExc String :=
  ([], .error ⟨"NotImplementedError", "Async version not implemented"⟩)

/-! ## Google Calendar credential resolution
(`src/aura/tools/google_calendar/utils.py`, `get_gmail_credentials`) -/

/-- A credential object, as the code observes it: validity/expiry flags, an
optional refresh token, and its JSON serialization (`to_json`). -/
structure Cred where
  valid : Bool
  expired : Bool
  refreshToken : Option String
  json : String
deriving Repr, DecidableEq

/-- Externally visible side effects of credential resolution, in order. -/
inductive Effect where
  | readTokenFile (path : String)
  | refreshCall
  | runLocalServer
  | writeTokenFile (path content : String)
  | loadServiceAccount (path : String) (scopes : List String)
deriving Repr, DecidableEq

/-- The external world `get_gmail_credentials` interacts with: the
filesystem and the Google auth library. -/
structure AuthEnv where
  /-- Result of `os.path.exists(token_file)`. -/
  tokenFileExists : String → Bool
  /-- Result of `Credentials.from_authorized_user_file(token_file, scopes)`. -/
  loadAuthorizedUser : String → List String → Cred
  /-- Result of `creds.refresh(Request())`: the credential after refresh. -/
  refresh : Cred → Cred
  /-- Result of
  `InstalledAppFlow.from_client_secrets_file(...).run_local_server(port=0)`. -/
  flowResult : String → List String → Cred
  /-- Result of `ServiceCredentials.from_service_account_file(f, scopes=s)`. -/
  serviceAccount : String → List String → Cred
  /-- Result of `credentials.with_subject(delegated_user)`. -/
  withSubject : Cred → String → Cred

def DEFAULT_SCOPES : List String := ["https://www.googleapis.com/auth/calendar"]

def DEFAULT_SERVICE_SCOPES : List String :=
  ["https://www.googleapis.com/auth/calendar.readonly",
   "https://www.googleapis.com/auth/calendar.events"]

def DEFAULT_CREDS_TOKEN_FILE : String := "token.json"

def DEFAULT_CLIENT_SECRETS_FILE : String := "credentials.json"

def DEFAULT_SERVICE_ACCOUNT_FILE : String := "service_account.json"

/-- The function `get_gmail_credentials`, returning the credential together
with the trace of external effects, in order. -/
def get_gmail_credentials (env : AuthEnv)
    (token_file client_secrets_file service_account_file : Option String)
    (scopes : Option (List String))
    (use_domain_wide : Bool) (delegated_user : Option String) :
    Cred × List Effect :=
  if use_domain_wide then
    let saf := service_account_file.getD DEFAULT_SERVICE_ACCOUNT_FILE
    let scps := scopes.getD DEFAULT_SERVICE_SCOPES
    let credentials := env.serviceAccount saf scps
    let credentials :=
      match delegated_user with
      | some u => env.withSubject credentials u
      | none => credentials
    (credentials, [.loadServiceAccount saf scps])
  else
    let scps := scopes.getD DEFAULT_SCOPES
    let tf := token_file.getD DEFAULT_CREDS_TOKEN_FILE
    let csf := client_secrets_file.getD DEFAULT_CLIENT_SECRETS_FILE
    let creds : Option Cred :=
      if env.tokenFileExists tf then some (env.loadAuthorizedUser tf scps)
      else none
    let readTrace : List Effect :=
      if env.tokenFileExists tf then [.readTokenFile tf] else []
    match creds with
    | some c =>
      if c.valid then (c, readTrace)
      else if c.expired && c.refreshToken.isSome then
        let c2 := env.refresh c
        (c2, readTrace ++ [.refreshCall, .writeTokenFile tf c2.json])
      else
        let c2 := env.flowResult csf scps
        (c2, readTrace ++ [.runLocalServer, .writeTokenFile tf c2.json])
    | none =>
      let c2 := env.flowResult csf scps
      (c2, readTrace ++ [.runLocalServer, .writeTokenFile tf c2.json])

/-- Environment with a valid cached token. -/
def validTokenEnv : AuthEnv where
  tokenFileExists := fun _ => true
  loadAuthorizedUser := fun _ _ => ⟨true, false, none, "tok"⟩
  refresh := fun c => c
  flowResult := fun _ _ => ⟨true, false, none, "flow"⟩
  serviceAccount := fun _ _ => ⟨true, false, none, "svc"⟩
  withSubject := fun c _ => c

/-- Environment with an expired, refreshable cached token. -/
def expiredTokenEnv : AuthEnv where
  tokenFileExists := fun _ => true
  loadAuthorizedUser := fun _ _ => ⟨false, true, some "rt", "old"⟩
  refresh := fun c => ⟨true, false, c.refreshToken, "new"⟩
  flowResult := fun _ _ => ⟨true, false, none, "flow"⟩
  serviceAccount := fun _ _ => ⟨true, false, none, "svc"⟩
  withSubject := fun c _ => c

/-! ## Datetime parsing and formatting
(`src/aura/tools/google_calendar/utils.py`, `parse_and_format_datetime`) -/

/-- A parsed wall-clock datetime, no timezone attached. -/
structure DT where
  year : Nat
  month : Nat
  day : Nat
  hour : Nat
  minute : Nat
  second : Nat
deriving Repr, DecidableEq

def isLeapYear (y : Nat) : Bool :=
  (y % 4 == 0 && y % 100 != 0) || y % 400 == 0

def daysInMonth (y m : Nat) : Nat :=
  if m == 2 then (if isLeapYear y then 29 else 28)
  else if m == 4 || m == 6 || m == 9 || m == 11 then 30
  else 31

/-- Is the character one of `0123456789`? -/
def isDigitCh (c : Char) : Bool :=
  decide (48 ≤ c.toNat) && decide (c.toNat ≤ 57)

/-- Numeric value of a digit character. -/
def digitVal (c : Char) : Nat := c.toNat - 48

/-- Digit character for a value `0..9`. -/
def digitCh (n : Nat) : Char := Char.ofNat (48 + n)

/-- Are the datetime components in the ranges `datetime` accepts
(`MINYEAR = 1`, real calendar day-of-month, 24h clock)? -/
def dtValid (dt : DT) : Bool :=
  decide (1 ≤ dt.year) && decide (1 ≤ dt.month) && decide (dt.month ≤ 12)
    && decide (1 ≤ dt.day) && decide (dt.day ≤ daysInMonth dt.year dt.month)
    && decide (dt.hour ≤ 23) && decide (dt.minute ≤ 59)
    && decide (dt.second ≤ 59)

/-- Consume exactly four digit characters (CPython's `%Y` regex is
`\d\d\d\d`), returning the year value and the remaining input. -/
def takeYear4 : List Char → Option (Nat × List Char)
  | a :: b :: c :: d :: rest =>
    if isDigitCh a && isDigitCh b && isDigitCh c && isDigitCh d then
      some (1000 * digitVal a + 100 * digitVal b + 10 * digitVal c
        + digitVal d, rest)
    else none
  | _ => none

/-- Consume one or two digit characters — the run is maximal because the
character that follows must then match the literal separator, exactly as
CPython's regex alternations (`1[0-2]|0[1-9]|[1-9]` for `%m`,
`2[0-3]|[0-1]\d|\d` for `%H`, `[0-5]\d|\d` for `%M`, ... ) behave inside
the anchored pattern; the numeric range checks happen afterwards and
reject the same inputs the alternations would. -/
def takeDigits12 : List Char → Option (Nat × List Char)
  | c1 :: c2 :: rest =>
    if isDigitCh c1 then
      if isDigitCh c2 then some (10 * digitVal c1 + digitVal c2, rest)
      else some (digitVal c1, c2 :: rest)
    else none
  | [c1] => if isDigitCh c1 then some (digitVal c1, []) else none
  | [] => none

/-- Consume the day field: CPython's `%d` regex additionally allows a
space-padded single digit (`3[01]|[1-2]\d|0[1-9]|[1-9]| [1-9]`). -/
def takeDay (l : List Char) : Option (Nat × List Char) :=
  if l.head? = some ' ' then
    l.tail.head?.bind fun c =>
      if isDigitCh c && decide (1 ≤ digitVal c) then
        some (digitVal c, l.tail.tail)
      else none
  else takeDigits12 l

/-- Consume one literal separator character. -/
def expectSep (c : Char) : List Char → Option (List Char)
  | x :: rest => if x == c then some rest else none
  | [] => none

/-- Consume the literal `T`: CPython compiles the format regex with
`IGNORECASE`, so a lowercase `t` is accepted too. -/
def expectT : List Char → Option (List Char)
  | x :: rest => if x == 'T' || x == 't' then some rest else none
  | [] => none

/-- Character-level parse of `%Y-%m-%dT%H:%M:%S`, CPython-style: a
four-digit year, one-or-two-digit other fields, case-insensitive `T`,
optional space padding of the day, no unconverted trailing input, then
the `datetime` constructor's range validation. (CPython's `%S` regex also
matches the leap-second values 60 and 61, but `datetime.strptime` then
raises the same `ValueError` from the constructor, so the `≤ 59` check
yields the identical ok/error outcome.) -/
def parseChars (l : List Char) : Option DT :=
  (takeYear4 l).bind fun (y, l1) =>
  (expectSep '-' l1).bind fun l2 =>
  (takeDigits12 l2).bind fun (m, l3) =>
  (expectSep '-' l3).bind fun l4 =>
  (takeDay l4).bind fun (d, l5) =>
  (expectT l5).bind fun l6 =>
  (takeDigits12 l6).bind fun (hr, l7) =>
  (expectSep ':' l7).bind fun l8 =>
  (takeDigits12 l8).bind fun (mi, l9) =>
  (expectSep ':' l9).bind fun l10 =>
  (takeDigits12 l10).bind fun (sec, l11) =>
  if l11.isEmpty && dtValid ⟨y, m, d, hr, mi, sec⟩ then
    some ⟨y, m, d, hr, mi, sec⟩
  else none

/-- Model of `datetime.strptime(s, "%Y-%m-%dT%H:%M:%S")` with calendar
validation; `none` models the `ValueError` Python raises on rejected
input. The grammar is CPython's lenient one: non-zero-padded
month/day/hour/minute/second and a lowercase `t` are accepted. -/
def strptimeDT (s : String) : Option DT :=
  parseChars s.data

/-- Two-digit zero-padded rendering. -/
def pad2 (n : Nat) : List Char := [digitCh (n / 10), digitCh (n % 10)]

/-- Four-digit zero-padded rendering. -/
def pad4 (n : Nat) : List Char :=
  [digitCh (n / 1000), digitCh (n / 100 % 10), digitCh (n / 10 % 10),
   digitCh (n % 10)]

/-- The `YYYY-MM-DDTHH:MM:SS` part of `datetime.isoformat()`. -/
def formatDT (dt : DT) : String :=
  ⟨pad4 dt.year ++ '-' :: (pad2 dt.month ++ '-' :: (pad2 dt.day
    ++ 'T' :: (pad2 dt.hour ++ ':' :: (pad2 dt.minute
    ++ ':' :: pad2 dt.second))))⟩

/-- The `±HH:MM` offset suffix `isoformat()` appends for an aware datetime,
for a UTC offset given in minutes. -/
def offsetSuffix (off : Int) : String :=
  (if off < 0 then "-" else "+")
    ++ ⟨pad2 (off.natAbs / 60)⟩ ++ ":" ++ ⟨pad2 (off.natAbs % 60)⟩

/-- A `tzinfo` object, observed as the UTC offset in minutes it assigns to
a wall-clock datetime (the offset may depend on the date, e.g. DST). -/
abbrev TZInfo := DT → Int

/-- The tz database behind `dateutil.tz.gettz`: `none` for an unrecognized
timezone name. -/
abbrev TZDatabase := String → Option TZInfo

/-- Model of `datetime.isoformat()`: a naive datetime (no `tzinfo`) renders
with no offset; an aware one appends its UTC offset. -/
def isoformat (dt : DT) (tzinfo : Option TZInfo) : String :=
  match tzinfo with
  | none => formatDT dt
  | some off => formatDT dt ++ offsetSuffix (off dt)

/-- The Python error outcome of `parse_and_format_datetime`:
`datetime.strptime` raises `ValueError` on malformed input. -/
inductive DTError where
  | valueError
deriving Repr, DecidableEq

/-- The function `parse_and_format_datetime`: resolve the timezone name
(falling back to `str(get_local_timezone())`), `strptime` both inputs,
attach `tz.gettz(timezone)` to both via `replace(tzinfo=...)` — a `None`
`tzinfo` when the name is unrecognized — and return both `isoformat()`
strings with the timezone name. -/
def parse_and_format_datetime (tzdb : TZDatabase) (localTimezone : String)
    (start_datetime end_datetime : String) (timezone : Option String) :
    Except DTError (String × String × String) :=
  let timezone := timezone.getD localTimezone
  match strptimeDT start_datetime with
  | none => .error .valueError
  | some st =>
    match strptimeDT end_datetime with
    | none => .error .valueError
    | some en =>
      let tzinfo := tzdb timezone
      .ok (isoformat st tzinfo, isoformat en tzinfo, timezone)

/-- A concrete tz database recognizing only `America/New_York` (fixed at
-300 minutes, i.e. `-05:00`). -/
def sampleTZDB : TZDatabase := fun n =>
  if n = "America/New_York" then some (fun _ => -300) else none

/-! ## Theorems: WHERE clause and async stub -/

theorem intercalate_go_eq (s : String) :
    ∀ (as : List String) (acc : String),
      String.intercalate.go acc s as
        = acc ++ as.foldr (fun a r => s ++ a ++ r) ""
  | [], acc => by simp [String.intercalate.go]
  | a :: as, acc => by
    rw [String.intercalate.go, intercalate_go_eq s as]
    simp [String.append_assoc]

theorem intercalate_cons_eq (s a : String) (as : List String) :
    String.intercalate s (a :: as)
      = a ++ as.foldr (fun b r => s ++ b ++ r) "" := by
  rw [String.intercalate, intercalate_go_eq]

/-- C1: for every condition list with N ≥ 0 entries the rendered predicate is
exactly the N rendered sub-clauses, in input order, joined with `" AND "`;
for N = 0 it is the empty string and the (prefiltered) query keeps all rows. -/
theorem build_where_clause_spec (conds : List FilterCondition)
    (rows : List Row) :
    build_where_clause conds = String.intercalate " AND " (conds.map renderCondition)
      ∧ build_where_clause [] = ""
      ∧ whereScan rows [] = rows := by
  refine ⟨?_, rfl, ?_⟩
  · induction conds with
    | nil => rfl
    | cons c rest ih =>
      cases rest with
      | nil => rfl
      | cons c2 rest2 =>
        rw [build_where_clause, ih, List.map_cons, List.map_cons,
          intercalate_cons_eq, intercalate_cons_eq]
        simp [List.foldr_cons, String.append_assoc]
  · simp [whereScan]

theorem lookup_eq_some_of_nodup :
    ∀ (l : List (String × String)) (k v : String),
      (l.map Prod.fst).Nodup → (k, v) ∈ l → l.lookup k = some v
  | [], _, _, _, h => absurd h (List.not_mem_nil _)
  | (a, b) :: t, k, v, hnd, hmem => by
    rw [List.map_cons, List.nodup_cons] at hnd
    rcases List.mem_cons.mp hmem with heq | ht
    · cases heq
      simp [List.lookup]
    · have hka : (k == a) = false := by
        apply beq_eq_false_iff_ne.mpr
        intro h
        subst h
        exact hnd.1 (List.mem_map.mpr ⟨(k, v), ht, rfl⟩)
      simp only [List.lookup, hka]
      exact lookup_eq_some_of_nodup t k v hnd.2 ht

theorem count_eq_one_of_nodup_mem {α : Type} [BEq α] [LawfulBEq α]
    {l : List α} {x : α} (hnd : l.Nodup) (hx : x ∈ l) : l.count x = 1 := by
  induction l with
  | nil => cases hx
  | cons a t ih =>
    rcases List.mem_cons.mp hx with rfl | ht
    · rw [List.count_cons_self]
      rw [List.count_eq_zero.mpr (List.nodup_cons.mp hnd).1]
    · have hxa : x ≠ a := by
        rintro rfl
        exact (List.nodup_cons.mp hnd).1 ht
      rw [List.count_cons_of_ne hxa, ih (List.nodup_cons.mp hnd).2 ht]

theorem entityLines_keys (fields : Entity) :
    (entityLines fields).map Prod.fst
      = (sortedKeys fields).filter (fun k => k != "vector") := by
  rw [entityLines, List.map_map]
  exact List.map_id _

/-- C2: the formatted entity never shows a field named `"vector"`; every
other field appears exactly once as a `key: value` line; and the displayed
keys are sorted lexicographically. -/
theorem formatEntity_fields (fields : Entity)
    (hnd : (fields.map Prod.fst).Nodup) :
    "vector" ∉ (entityLines fields).map Prod.fst
    ∧ (∀ k v, (k, v) ∈ fields → k ≠ "vector" →
        (entityLines fields).count (k, v) = 1)
    ∧ List.Sorted (· ≤ ·) ((entityLines fields).map Prod.fst) := by
  have hsortnd : (sortedKeys fields).Nodup :=
    (List.perm_insertionSort _ _).nodup_iff.mpr hnd
  refine ⟨?_, ?_, ?_⟩
  · rw [entityLines_keys]
    intro hmem
    have := List.of_mem_filter hmem
    simp at this
  · intro k v hmem hkv
    have hlines_nd : (entityLines fields).Nodup := by
      apply List.Nodup.map
      · intro a b h
        exact congrArg Prod.fst h
      · exact hsortnd.filter _
    have hkmem : k ∈ (sortedKeys fields).filter (fun k => k != "vector") := by
      apply List.mem_filter.mpr
      refine ⟨?_, by simpa using hkv⟩
      rw [sortedKeys, List.mem_insertionSort]
      exact List.mem_map.mpr ⟨(k, v), hmem, rfl⟩
    have hpair : (k, v) ∈ entityLines fields := by
      rw [entityLines]
      apply List.mem_map.mpr
      exact ⟨k, hkmem, by rw [lookup_eq_some_of_nodup fields k v hnd hmem]; rfl⟩
    exact count_eq_one_of_nodup_mem hlines_nd hpair
  · rw [entityLines_keys]
    exact (List.sorted_insertionSort _ _).filter _

/-- C2 witness: the formatted-field properties at a concrete entity. -/
theorem formatEntity_fields_witness :
    ((entityLines [("b", "2"), ("vector", "emb"), ("a", "1")]).count ("a", "1") = 1)
    ∧ "vector" ∉ (entityLines [("b", "2"), ("vector", "emb"), ("a", "1")]).map Prod.fst
    ∧ List.Sorted (· ≤ ·)
        ((entityLines [("b", "2"), ("vector", "emb"), ("a", "1")]).map Prod.fst) := by
  have h := formatEntity_fields [("b", "2"), ("vector", "emb"), ("a", "1")] (by decide)
  exact ⟨h.2.1 "a" "1" (by decide) (by decide), h.1, h.2.2⟩

/-- C3: on success the returned string is exactly
`"Found <N> entities matching <predicate>:"` followed by the brace-delimited
entity blocks, newline-joined — also when the result list is empty. -/
theorem run_success_format (openTable : String → Except PyExc Table)
    (table_name : String) (conds : List FilterCondition)
    (t : Table) (rs : List Entity)
    (hopen : openTable table_name = .ok t)
    (hquery : t (build_where_clause conds) true = .ok rs) :
    LanceDBGetEntity_run openTable table_name conds
      = ([], .ok ("Found " ++ toString rs.length ++ " entities matching "
          ++ build_where_clause conds ++ ":\n"
          ++ String.intercalate "\n" (rs.map formatEntity))) := by
  simp [LanceDBGetEntity_run, hopen, hquery]

/-- C3 witness: concrete empty-result run. -/
theorem run_success_format_witness :
    LanceDBGetEntity_run (fun _ => .ok (fun _ _ => .ok ([] : List Entity)))
        "events" []
      = ([], .ok "Found 0 entities matching :\n") :=
  (run_success_format (fun _ => .ok (fun _ _ => .ok ([] : List Entity)))
    "events" [] _ [] rfl rfl).trans rfl

/-- C8: every exception raised while opening the table or running the query
is logged as `"Failed to get entities: ..."` and the identical exception
(same type, same message) propagates to the caller. -/
theorem run_error_propagation (openTable : String → Except PyExc Table)
    (table_name : String) (conds : List FilterCondition) :
    (∀ e, openTable table_name = .error e →
        LanceDBGetEntity_run openTable table_name conds
          = (["Failed to get entities: " ++ e.msg], .error e))
    ∧ (∀ t e, openTable table_name = .ok t →
        t (build_where_clause conds) true = .error e →
        LanceDBGetEntity_run openTable table_name conds
          = (["Failed to get entities: " ++ e.msg], .error e)) := by
  constructor
  · intro e he
    simp [LanceDBGetEntity_run, he]
  · intro t e hopen hquery
    simp [LanceDBGetEntity_run, hopen, hquery]

/-- C8 witness: a concrete table-open failure is logged and re-raised. -/
theorem run_error_propagation_witness :
    LanceDBGetEntity_run (fun _ => .error ⟨"ValueError", "boom"⟩) "events" []
      = (["Failed to get entities: boom"], .error ⟨"ValueError", "boom"⟩) :=
  ((run_error_propagation (fun _ => .error ⟨"ValueError", "boom"⟩)
    "events" []).1 ⟨"ValueError", "boom"⟩ rfl).trans rfl

/-- C9: the async entry point fails with `NotImplementedError` on every
input, with no side effects. -/
theorem arun_always_notImplemented (table whereStr : String) :
    LanceDBGetEntity_arun table whereStr
      = ([], .error ⟨"NotImplementedError", "Async version not implemented"⟩) :=
  rfl

/-! ## Theorems: credential resolution -/

/-- C5: with an existing token file holding a valid credential, resolution
returns the loaded credential unchanged and its only effect is the token
file read: no refresh, no interactive flow, no write. -/
theorem resolve_valid_token_no_network (env : AuthEnv)
    (token_file client_secrets_file service_account_file : Option String)
    (scopes : Option (List String)) (delegated_user : Option String)
    (hexists :
      env.tokenFileExists (token_file.getD DEFAULT_CREDS_TOKEN_FILE) = true)
    (hvalid :
      (env.loadAuthorizedUser (token_file.getD DEFAULT_CREDS_TOKEN_FILE)
        (scopes.getD DEFAULT_SCOPES)).valid = true) :
    get_gmail_credentials env token_file client_secrets_file
        service_account_file scopes false delegated_user
      = (env.loadAuthorizedUser (token_file.getD DEFAULT_CREDS_TOKEN_FILE)
           (scopes.getD DEFAULT_SCOPES),
         [.readTokenFile (token_file.getD DEFAULT_CREDS_TOKEN_FILE)]) := by
  simp [get_gmail_credentials, hexists, hvalid]

/-- C5 witness: concrete run with a valid cached token. -/
theorem resolve_valid_token_witness :
    get_gmail_credentials validTokenEnv none none none none false none
      = (⟨true, false, none, "tok"⟩, [.readTokenFile "token.json"]) :=
  (resolve_valid_token_no_network validTokenEnv none none none none none
    rfl rfl).trans rfl

/-- C6: with an existing token file holding an expired credential that has a
refresh token, resolution performs exactly one refresh call, never runs the
interactive flow, overwrites the token file with the serialized refreshed
credential, and returns the refreshed credential. -/
theorem resolve_expired_refreshable (env : AuthEnv)
    (token_file client_secrets_file service_account_file : Option String)
    (scopes : Option (List String)) (delegated_user : Option String)
    (hexists :
      env.tokenFileExists (token_file.getD DEFAULT_CREDS_TOKEN_FILE) = true)
    (hvalid :
      (env.loadAuthorizedUser (token_file.getD DEFAULT_CREDS_TOKEN_FILE)
        (scopes.getD DEFAULT_SCOPES)).valid = false)
    (hexpired :
      (env.loadAuthorizedUser (token_file.getD DEFAULT_CREDS_TOKEN_FILE)
        (scopes.getD DEFAULT_SCOPES)).expired = true)
    (hrt :
      (env.loadAuthorizedUser (token_file.getD DEFAULT_CREDS_TOKEN_FILE)
        (scopes.getD DEFAULT_SCOPES)).refreshToken.isSome = true) :
    get_gmail_credentials env token_file client_secrets_file
        service_account_file scopes false delegated_user
      = (env.refresh (env.loadAuthorizedUser
           (token_file.getD DEFAULT_CREDS_TOKEN_FILE)
           (scopes.getD DEFAULT_SCOPES)),
         [.readTokenFile (token_file.getD DEFAULT_CREDS_TOKEN_FILE),
          .refreshCall,
          .writeTokenFile (token_file.getD DEFAULT_CREDS_TOKEN_FILE)
            (env.refresh (env.loadAuthorizedUser
              (token_file.getD DEFAULT_CREDS_TOKEN_FILE)
              (scopes.getD DEFAULT_SCOPES))).json])
    ∧ (get_gmail_credentials env token_file client_secrets_file
        service_account_file scopes false delegated_user).2.count
          .refreshCall = 1
    ∧ Effect.runLocalServer ∉ (get_gmail_credentials env token_file
        client_secrets_file service_account_file scopes
        false delegated_user).2 := by
  have h : get_gmail_credentials env token_file client_secrets_file
      service_account_file scopes false delegated_user
    = (env.refresh (env.loadAuthorizedUser
         (token_file.getD DEFAULT_CREDS_TOKEN_FILE)
         (scopes.getD DEFAULT_SCOPES)),
       [.readTokenFile (token_file.getD DEFAULT_CREDS_TOKEN_FILE),
        .refreshCall,
        .writeTokenFile (token_file.getD DEFAULT_CREDS_TOKEN_FILE)
          (env.refresh (env.loadAuthorizedUser
            (token_file.getD DEFAULT_CREDS_TOKEN_FILE)
            (scopes.getD DEFAULT_SCOPES))).json]) := by
    simp [get_gmail_credentials, hexists, hvalid, hexpired, hrt]
  refine ⟨h, ?_, ?_⟩
  · rw [h]
    rfl
  · rw [h]
    intro hmem
    simp [List.mem_cons] at hmem

/-- C6 witness: concrete run with an expired refreshable token. -/
theorem resolve_expired_refreshable_witness :
    get_gmail_credentials expiredTokenEnv none none none none false none
      = (⟨true, false, some "rt", "new"⟩,
         [.readTokenFile "token.json", .refreshCall,
          .writeTokenFile "token.json" "new"])
    ∧ (get_gmail_credentials expiredTokenEnv none none none none
        false none).2.count .refreshCall = 1
    ∧ Effect.runLocalServer
        ∉ (get_gmail_credentials expiredTokenEnv none none none none
            false none).2 := by
  have h := resolve_expired_refreshable expiredTokenEnv none none none none
    none rfl rfl rfl rfl
  exact ⟨h.1.trans rfl, h.2.1, h.2.2⟩

/-- C7: with `use_domain_wide` set, resolution loads a service-account
credential from `service_account_file` (default `service_account.json`)
with the given scopes (default: read-only + events), applies
`with_subject` exactly when `delegated_user` is given, and neither reads
nor writes the token file. -/
theorem resolve_domain_wide (env : AuthEnv)
    (token_file client_secrets_file service_account_file : Option String)
    (scopes : Option (List String)) (delegated_user : Option String) :
    get_gmail_credentials env token_file client_secrets_file
        service_account_file scopes true delegated_user
      = ((match delegated_user with
          | some u => env.withSubject
              (env.serviceAccount
                (service_account_file.getD DEFAULT_SERVICE_ACCOUNT_FILE)
                (scopes.getD DEFAULT_SERVICE_SCOPES)) u
          | none => env.serviceAccount
              (service_account_file.getD DEFAULT_SERVICE_ACCOUNT_FILE)
              (scopes.getD DEFAULT_SERVICE_SCOPES)),
         [.loadServiceAccount
            (service_account_file.getD DEFAULT_SERVICE_ACCOUNT_FILE)
            (scopes.getD DEFAULT_SERVICE_SCOPES)])
    ∧ (∀ p, Effect.readTokenFile p
        ∉ (get_gmail_credentials env token_file client_secrets_file
            service_account_file scopes true delegated_user).2)
    ∧ (∀ p s, Effect.writeTokenFile p s
        ∉ (get_gmail_credentials env token_file client_secrets_file
            service_account_file scopes true delegated_user).2) := by
  refine ⟨by simp [get_gmail_credentials], ?_, ?_⟩
  · intro p hmem
    simp [get_gmail_credentials, List.mem_cons] at hmem
  · intro p s hmem
    simp [get_gmail_credentials, List.mem_cons] at hmem

/-- C7 witness: concrete domain-wide run with a delegated user. -/
theorem resolve_domain_wide_witness :
    get_gmail_credentials validTokenEnv none none none none true
        (some "user@example.com")
      = (⟨true, false, none, "svc"⟩,
         [.loadServiceAccount "service_account.json" DEFAULT_SERVICE_SCOPES])
    ∧ Effect.readTokenFile "token.json"
        ∉ (get_gmail_credentials validTokenEnv none none none none true
            (some "user@example.com")).2 := by
  have h := resolve_domain_wide validTokenEnv none none none none
    (some "user@example.com")
  exact ⟨h.1.trans rfl, h.2.1 "token.json"⟩

/-! ## Theorems: datetime parsing and formatting -/

theorem isDigitCh_bounds {c : Char} (h : isDigitCh c = true) :
    48 ≤ c.toNat ∧ c.toNat ≤ 57 := by
  rw [isDigitCh, Bool.and_eq_true, decide_eq_true_eq, decide_eq_true_eq] at h
  exact h

theorem digitVal_le_nine {c : Char} (h : isDigitCh c = true) :
    digitVal c ≤ 9 := by
  have hb := isDigitCh_bounds h
  rw [digitVal]
  omega

theorem isDigitCh_digitCh {n : Nat} (h : n ≤ 9) :
    isDigitCh (digitCh n) = true := by
  interval_cases n <;> decide

theorem digitVal_digitCh {n : Nat} (h : n ≤ 9) : digitVal (digitCh n) = n := by
  interval_cases n <;> decide

theorem digitCh_ne_space {n : Nat} (h : n ≤ 9) : digitCh n ≠ ' ' := by
  interval_cases n <;> decide

theorem takeYear4_pad4 {y : Nat} (h : y ≤ 9999) (rest : List Char) :
    takeYear4 (pad4 y ++ rest) = some (y, rest) := by
  have h1 : y / 1000 ≤ 9 := by omega
  have h2 : y / 100 % 10 ≤ 9 := by omega
  have h3 : y / 10 % 10 ≤ 9 := by omega
  have h4 : y % 10 ≤ 9 := by omega
  have hval : 1000 * (y / 1000) + 100 * (y / 100 % 10) + 10 * (y / 10 % 10)
      + y % 10 = y := by omega
  rw [pad4]
  simp only [List.cons_append, List.nil_append]
  rw [takeYear4, isDigitCh_digitCh h1, isDigitCh_digitCh h2,
    isDigitCh_digitCh h3, isDigitCh_digitCh h4]
  rw [if_pos (by decide), digitVal_digitCh h1, digitVal_digitCh h2,
    digitVal_digitCh h3, digitVal_digitCh h4, hval]

theorem takeDigits12_pad2 {n : Nat} (h : n ≤ 99) (rest : List Char) :
    takeDigits12 (pad2 n ++ rest) = some (n, rest) := by
  have h1 : n / 10 ≤ 9 := by omega
  have h2 : n % 10 ≤ 9 := by omega
  have hval : 10 * (n / 10) + n % 10 = n := by omega
  rw [pad2]
  simp only [List.cons_append, List.nil_append]
  rw [takeDigits12, isDigitCh_digitCh h1, isDigitCh_digitCh h2]
  rw [if_pos rfl, if_pos rfl, digitVal_digitCh h1, digitVal_digitCh h2,
    hval]

theorem takeDigits12_pad2_nil {n : Nat} (h : n ≤ 99) :
    takeDigits12 (pad2 n) = some (n, []) := by
  have := takeDigits12_pad2 h []
  rwa [List.append_nil] at this

theorem takeDay_pad2 {n : Nat} (h : n ≤ 99) (rest : List Char) :
    takeDay (pad2 n ++ rest) = some (n, rest) := by
  have h1 : n / 10 ≤ 9 := by omega
  have hne : ¬((pad2 n ++ rest).head? = some ' ') := by
    rw [pad2]
    simp only [List.cons_append, List.head?_cons, Option.some.injEq]
    exact digitCh_ne_space h1
  rw [takeDay, if_neg hne]
  exact takeDigits12_pad2 h rest

theorem takeYear4_year_le :
    ∀ {l : List Char} {y : Nat} {rest : List Char},
      takeYear4 l = some (y, rest) → y ≤ 9999 := by
  intro l y rest h
  rcases l with _ | ⟨a, _ | ⟨b, _ | ⟨c, _ | ⟨d, r⟩⟩⟩⟩ <;>
    first
    | exact Option.noConfusion h
    | skip
  simp only [takeYear4] at h
  split at h
  case isFalse => exact Option.noConfusion h
  case isTrue hd =>
    simp only [Bool.and_eq_true] at hd
    obtain ⟨⟨⟨ha, hb⟩, hc⟩, hdd⟩ := hd
    have := digitVal_le_nine ha
    have := digitVal_le_nine hb
    have := digitVal_le_nine hc
    have := digitVal_le_nine hdd
    injection h with h
    have hy := congrArg Prod.fst h
    simp only at hy
    omega

/-- A successful parse yields in-range components and a four-digit year. -/
theorem strptimeDT_bounds {s : String} {dt : DT}
    (h : strptimeDT s = some dt) :
    dtValid dt = true ∧ dt.year ≤ 9999 := by
  rw [strptimeDT] at h
  simp only [parseChars, Option.bind_eq_some] at h
  obtain ⟨⟨y, l1⟩, hy, h⟩ := h
  obtain ⟨l2, -, h⟩ := h
  obtain ⟨⟨m, l3⟩, -, h⟩ := h
  obtain ⟨l4, -, h⟩ := h
  obtain ⟨⟨d, l5⟩, -, h⟩ := h
  obtain ⟨l6, -, h⟩ := h
  obtain ⟨⟨hr, l7⟩, -, h⟩ := h
  obtain ⟨l8, -, h⟩ := h
  obtain ⟨⟨mi, l9⟩, -, h⟩ := h
  obtain ⟨l10, -, h⟩ := h
  obtain ⟨⟨sec, l11⟩, -, h⟩ := h
  split at h
  case isFalse => exact Option.noConfusion h
  case isTrue hcond =>
    injection h with h
    subst h
    rw [Bool.and_eq_true] at hcond
    exact ⟨hcond.2, takeYear4_year_le hy⟩

/-- Formatting a datetime with in-range components and re-parsing it gives
the same datetime back. -/
theorem strptimeDT_formatDT {dt : DT} (hv : dtValid dt = true)
    (hy : dt.year ≤ 9999) :
    strptimeDT (formatDT dt) = some dt := by
  obtain ⟨y, m, d, hr, mi, sec⟩ := dt
  have hv' := hv
  rw [dtValid] at hv'
  simp only [Bool.and_eq_true, decide_eq_true_eq] at hv'
  obtain ⟨⟨⟨⟨⟨⟨⟨-, -⟩, hm12⟩, -⟩, hdm⟩, hh23⟩, hmi59⟩, hs59⟩ := hv'
  have hdm31 : d ≤ 31 := by
    refine le_trans hdm ?_
    rw [daysInMonth]
    split
    · split <;> omega
    · split <;> omega
  have hm99 : m ≤ 99 := by omega
  have hd99 : d ≤ 99 := by omega
  have hh99 : hr ≤ 99 := by omega
  have hmi99 : mi ≤ 99 := by omega
  have hs99 : sec ≤ 99 := by omega
  rw [strptimeDT]
  show parseChars (pad4 y ++ '-' :: (pad2 m ++ '-' :: (pad2 d
    ++ 'T' :: (pad2 hr ++ ':' :: (pad2 mi ++ ':' :: pad2 sec))))) = _
  rw [parseChars, takeYear4_pad4 hy]
  simp only [Option.some_bind, expectSep, beq_self_eq_true, if_true,
    takeDigits12_pad2 hm99, takeDay_pad2 hd99, expectT, Bool.true_or,
    takeDigits12_pad2 hh99, takeDigits12_pad2 hmi99,
    takeDigits12_pad2_nil hs99]
  have hcond :
      (List.isEmpty ([] : List Char)
        && dtValid ⟨y, m, d, hr, mi, sec⟩) = true := by
    rw [Bool.and_eq_true]
    exact ⟨rfl, hv⟩
  rw [if_pos hcond]

theorem formatDT_data_length (dt : DT) : (formatDT dt).data.length = 19 := by
  simp [formatDT, pad4, pad2]

theorem isoformat_data_take (dt : DT) (tzo : Option TZInfo) :
    (isoformat dt tzo).data.take 19 = (formatDT dt).data := by
  cases tzo with
  | none =>
    rw [isoformat]
    conv_lhs => rw [← formatDT_data_length dt]
    exact List.take_length _
  | some off =>
    rw [isoformat, String.data_append]
    exact List.take_left' (formatDT_data_length dt)

/-- C4 counterexample: an unrecognized timezone name does not make
`parse_and_format_datetime` fail — it succeeds, and the returned
timestamps carry no offset at all. -/
theorem unknown_timezone_does_not_fail :
    parse_and_format_datetime sampleTZDB "UTC"
        "2024-01-15T10:00:00" "2024-01-15T11:00:00" (some "Nowhere/Unknown")
      = .ok ("2024-01-15T10:00:00", "2024-01-15T11:00:00",
             "Nowhere/Unknown") := by
  rfl

/-- C4 (amended): `parse_and_format_datetime` fails (with `ValueError`)
exactly when either input is rejected by `datetime.strptime` with format
`%Y-%m-%dT%H:%M:%S` (a lenient grammar: single-digit
month/day/hour/minute/second and a lowercase `t` are accepted); an
unrecognized timezone name does not fail: the call succeeds and the
returned timestamps carry no offset; when the name is recognized, both
returned timestamps carry the resolved timezone's offset. -/
theorem parse_and_format_datetime_outcomes (tzdb : TZDatabase)
    (localTimezone start_datetime end_datetime : String)
    (timezone : Option String) :
    (parse_and_format_datetime tzdb localTimezone start_datetime
        end_datetime timezone = .error .valueError
      ↔ strptimeDT start_datetime = none ∨ strptimeDT end_datetime = none)
    ∧ (∀ st en off, strptimeDT start_datetime = some st →
        strptimeDT end_datetime = some en →
        tzdb (timezone.getD localTimezone) = some off →
        parse_and_format_datetime tzdb localTimezone start_datetime
            end_datetime timezone
          = .ok (formatDT st ++ offsetSuffix (off st),
                 formatDT en ++ offsetSuffix (off en),
                 timezone.getD localTimezone))
    ∧ (∀ st en, strptimeDT start_datetime = some st →
        strptimeDT end_datetime = some en →
        tzdb (timezone.getD localTimezone) = none →
        parse_and_format_datetime tzdb localTimezone start_datetime
            end_datetime timezone
          = .ok (formatDT st, formatDT en, timezone.getD localTimezone)) := by
  refine ⟨?_, ?_, ?_⟩
  · constructor
    · intro h
      by_contra hcon
      push_neg at hcon
      obtain ⟨hs, he⟩ := hcon
      obtain ⟨st, hst⟩ := Option.ne_none_iff_exists'.mp hs
      obtain ⟨en, hen⟩ := Option.ne_none_iff_exists'.mp he
      rw [parse_and_format_datetime, hst, hen] at h
      simp at h
    · intro h
      rcases h with h | h
      · rw [parse_and_format_datetime, h]
      · rw [parse_and_format_datetime]
        cases hst : strptimeDT start_datetime with
        | none => rfl
        | some st => rw [h]
  · intro st en off hst hen htz
    rw [parse_and_format_datetime, hst, hen]
    simp only [htz, isoformat]
  · intro st en hst hen htz
    rw [parse_and_format_datetime, hst, hen]
    simp only [htz, isoformat]

/-- C4 witness: a malformed input fails; well-formed inputs with the
recognized timezone succeed with `-05:00` offsets attached. -/
theorem parse_and_format_datetime_outcomes_witness :
    parse_and_format_datetime sampleTZDB "UTC"
        "2024-13-15T10:00:00" "2024-01-15T11:00:00" none
      = .error .valueError
    ∧ parse_and_format_datetime sampleTZDB "UTC"
        "2024-01-15T10:00:00" "2024-01-15T11:00:00"
        (some "America/New_York")
      = .ok ("2024-01-15T10:00:00-05:00", "2024-01-15T11:00:00-05:00",
             "America/New_York") := by
  constructor
  · exact (parse_and_format_datetime_outcomes sampleTZDB "UTC"
      "2024-13-15T10:00:00" "2024-01-15T11:00:00" none).1.mpr (Or.inl rfl)
  · exact ((parse_and_format_datetime_outcomes sampleTZDB "UTC"
      "2024-01-15T10:00:00" "2024-01-15T11:00:00"
      (some "America/New_York")).2.1
      ⟨2024, 1, 15, 10, 0, 0⟩ ⟨2024, 1, 15, 11, 0, 0⟩ (fun _ => -300)
      rfl rfl rfl).trans rfl

/-- C10: the returned strings preserve the wall-clock date and time: the
date and time components of each returned timestamp (its first 19
characters, the `YYYY-MM-DDTHH:MM:SS` part) parse to exactly the datetime
parsed from the corresponding input string — only an offset is attached
and single-digit fields are re-rendered zero-padded; no timezone
conversion of the time value occurs. -/
theorem parse_and_format_datetime_preserves_wallclock
    (tzdb : TZDatabase) (localTimezone start_datetime end_datetime : String)
    (timezone : Option String) (r1 r2 tzr : String)
    (h : parse_and_format_datetime tzdb localTimezone start_datetime
        end_datetime timezone = .ok (r1, r2, tzr)) :
    strptimeDT (String.mk (r1.data.take 19)) = strptimeDT start_datetime
    ∧ strptimeDT (String.mk (r2.data.take 19)) = strptimeDT end_datetime := by
  rw [parse_and_format_datetime] at h
  cases hst : strptimeDT start_datetime with
  | none => rw [hst] at h; exact absurd h (by simp)
  | some st =>
    cases hen : strptimeDT end_datetime with
    | none => rw [hst, hen] at h; exact absurd h (by simp)
    | some en =>
      rw [hst, hen] at h
      simp only [Except.ok.injEq, Prod.mk.injEq] at h
      obtain ⟨h1, h2, -⟩ := h
      subst h1 h2
      obtain ⟨hv1, hy1⟩ := strptimeDT_bounds hst
      obtain ⟨hv2, hy2⟩ := strptimeDT_bounds hen
      rw [isoformat_data_take, isoformat_data_take]
      exact ⟨strptimeDT_formatDT hv1 hy1, strptimeDT_formatDT hv2 hy2⟩

/-- C10 witness: a non-zero-padded input (`"2024-1-15T10:00:00"`, accepted
by the lenient parse) comes back zero-padded with identical wall-clock
components. -/
theorem parse_and_format_preserves_wallclock_witness :
    strptimeDT (String.mk (("2024-01-15T10:00:00-05:00" : String).data.take 19))
        = strptimeDT "2024-1-15T10:00:00"
    ∧ strptimeDT (String.mk (("2024-01-15T11:00:00-05:00" : String).data.take 19))
        = strptimeDT "2024-01-15T11:00:00" :=
  parse_and_format_datetime_preserves_wallclock sampleTZDB "UTC"
    "2024-1-15T10:00:00" "2024-01-15T11:00:00" (some "America/New_York")
    "2024-01-15T10:00:00-05:00" "2024-01-15T11:00:00-05:00"
    "America/New_York" rfl

end Maily
